import Mathlib

/-!
Shallow embedding of the EIF parser from `eif_parse.c`: the fixed 548-byte
file-header decoder (`parse_eif_header`), the 12-byte section-header decoder
(`parse_eif_section_header`), and the section walk performed by
`parse_eif_file` (seek to each declared offset, decode the section header,
warn on size mismatch, capture the first metadata payload).  Bytes are
modelled as natural numbers below 256, buffers and files as `List Nat`, and
the fatal `exit(1)` paths of the C program as values of `EifError`.
-/

def EIF_HEADER_SIZE : Nat := 548

def EIF_SECTION_HEADER_SIZE : Nat := 12

def MAX_SECTIONS : Nat := 32

/-- `BIG_ENDIAN_U16`: most-significant byte first (shift-or on disjoint bits
equals multiply-add). -/
def beU16 (l : List Nat) : Nat := l.getD 0 0 * 2 ^ 8 + l.getD 1 0

/-- `BIG_ENDIAN_U32`. -/
def beU32 (l : List Nat) : Nat :=
  l.getD 0 0 * 2 ^ 24 + l.getD 1 0 * 2 ^ 16 + l.getD 2 0 * 2 ^ 8 + l.getD 3 0

/-- `BIG_ENDIAN_U64`. -/
def beU64 (l : List Nat) : Nat :=
  l.getD 0 0 * 2 ^ 56 + l.getD 1 0 * 2 ^ 48 + l.getD 2 0 * 2 ^ 40 +
  l.getD 3 0 * 2 ^ 32 + l.getD 4 0 * 2 ^ 24 + l.getD 5 0 * 2 ^ 16 +
  l.getD 6 0 * 2 ^ 8 + l.getD 7 0

/-- The `EifHeader` struct, fields in on-disk order. -/
structure EifHeader where
  magic : List Nat
  version : Nat
  flags : Nat
  default_memory : Nat
  default_cpus : Nat
  reserved : Nat
  section_cnt : Nat
  section_offsets : List Nat
  section_sizes : List Nat
  unused : Nat
  eif_crc32 : Nat
deriving DecidableEq

/-- The `EifSectionHeader` struct (type, flags, size). -/
structure EifSectionHeader where
  section_type : Nat
  flags : Nat
  section_size : Nat
deriving DecidableEq

/-- The error taxonomy for the fatal `exit(1)` paths of the walk and the
decoders. -/
inductive EifError where
  | TruncatedInput
  | TooManySections
  | SeekFailed
  | TruncatedSectionHeader
  | TruncatedMetadata
deriving DecidableEq

instance {e a : Type} [DecidableEq e] [DecidableEq a] : DecidableEq (Except e a) :=
  fun x y =>
  match x, y with
  | Except.error u, Except.error v =>
    if h : u = v then Decidable.isTrue (by rw [h])
    else Decidable.isFalse (fun hc => h (Except.error.inj hc))
  | Except.error _, Except.ok _ => Decidable.isFalse (fun hc => Except.noConfusion hc)
  | Except.ok _, Except.error _ => Decidable.isFalse (fun hc => Except.noConfusion hc)
  | Except.ok u, Except.ok v =>
    if h : u = v then Decidable.isTrue (by rw [h])
    else Decidable.isFalse (fun hc => h (Except.ok.inj hc))

/-- `parse_eif_header` from `eif_parse.c`: decodes the 548-byte header,
advancing through the fields in on-disk order (cumulative offsets
4, 6, 8, 16, 24, 26, 28, 284, 540, 544).  The C `assert(buf_len >= 548)`
is the `TruncatedInput` failure. -/
def parse_eif_header (buf : List Nat) : Except EifError EifHeader :=
  if EIF_HEADER_SIZE ≤ buf.length then
    Except.ok
      { magic := [buf.getD 0 0, buf.getD 1 0, buf.getD 2 0, buf.getD 3 0]
        version := beU16 (buf.drop 4)
        flags := beU16 (buf.drop 6)
        default_memory := beU64 (buf.drop 8)
        default_cpus := beU64 (buf.drop 16)
        reserved := beU16 (buf.drop 24)
        section_cnt := beU16 (buf.drop 26)
        section_offsets := (List.range MAX_SECTIONS).map fun i => beU64 (buf.drop (28 + 8 * i))
        section_sizes := (List.range MAX_SECTIONS).map fun i => beU64 (buf.drop (284 + 8 * i))
        unused := beU32 (buf.drop 540)
        eif_crc32 := beU32 (buf.drop 544) }
  else Except.error EifError.TruncatedInput

/-- `parse_eif_section_header` from `eif_parse.c`: 2-byte type, 2-byte flags,
8-byte size, all big-endian. -/
def parse_eif_section_header (buf : List Nat) : EifSectionHeader :=
  { section_type := beU16 buf
    flags := beU16 (buf.drop 2)
    section_size := beU64 (buf.drop 4) }

/-- Big-endian re-encoding of a 16-bit value. -/
def beBytes16 (v : Nat) : List Nat := [v / 2 ^ 8 % 2 ^ 8, v % 2 ^ 8]

/-- Big-endian re-encoding of a 32-bit value. -/
def beBytes32 (v : Nat) : List Nat :=
  [v / 2 ^ 24 % 2 ^ 8, v / 2 ^ 16 % 2 ^ 8, v / 2 ^ 8 % 2 ^ 8, v % 2 ^ 8]

/-- Big-endian re-encoding of a 64-bit value. -/
def beBytes64 (v : Nat) : List Nat :=
  [v / 2 ^ 56 % 2 ^ 8, v / 2 ^ 48 % 2 ^ 8, v / 2 ^ 40 % 2 ^ 8, v / 2 ^ 32 % 2 ^ 8,
   v / 2 ^ 24 % 2 ^ 8, v / 2 ^ 16 % 2 ^ 8, v / 2 ^ 8 % 2 ^ 8, v % 2 ^ 8]

/-- Re-encoding of every `EifHeader` field at its fixed offset with
big-endian byte order (the inverse layout of `parse_eif_header`). -/
def encode_header (h : EifHeader) : List Nat :=
  h.magic ++ (beBytes16 h.version ++ (beBytes16 h.flags ++
    (beBytes64 h.default_memory ++ (beBytes64 h.default_cpus ++
    (beBytes16 h.reserved ++ (beBytes16 h.section_cnt ++
    ((h.section_offsets.map beBytes64).flatten ++
    ((h.section_sizes.map beBytes64).flatten ++
    (beBytes32 h.unused ++ beBytes32 h.eif_crc32)))))))))

/-- A random-access byte source: the file contents plus the behaviour of
`lseek(fd, off, SEEK_SET)`, which reports the absolute position it actually
landed at. -/
structure ByteSource where
  data : List Nat
  seekTo : Nat → Nat

/-- `read` of exactly `n` bytes starting at absolute position `pos`; the C
code treats any short read (`got != n`) as failure, so fewer than `n`
available bytes yields `none`. -/
def readExact (src : ByteSource) (pos n : Nat) : Option (List Nat) :=
  if pos + n ≤ src.data.length then some ((src.data.drop pos).take n) else none

/-- Operations performed on the byte source, in order. -/
inductive SourceOp where
  | seek (off : Nat)
  | readBytes (pos n : Nat)
deriving DecidableEq

/-- Result of the section walk: the decoded section headers in visit order,
the size-mismatch warnings (file-header size, section-header size), and the
retained metadata buffer. -/
abbrev WalkOut := List EifSectionHeader × List (Nat × Nat) × Option (List Nat)

instance : DecidableEq WalkOut := instDecidableEqProd

instance : DecidableEq (Except EifError WalkOut) := inferInstance

instance : DecidableEq (Except EifError WalkOut × List SourceOp) := instDecidableEqProd

/-- The declared offset of section `i` (`eif_header.section_offsets[i]`). -/
def sectionOffset (hdr : EifHeader) (i : Nat) : Nat := hdr.section_offsets.getD i 0

/-- The declared size of section `i` (`eif_header.section_sizes[i]`). -/
def sectionDeclSize (hdr : EifHeader) (i : Nat) : Nat := hdr.section_sizes.getD i 0

/-- One iteration of the loop in `parse_eif_file`: seek to the declared
offset (mismatching landing position is fatal), read and decode the 12-byte
section header (short read is fatal), emit a warning when the file header
and the section header disagree about the size, and, when no metadata has
been captured yet and the type is 5, read `section_size + 1` bytes and
overwrite the final byte with the null terminator (short read is fatal). -/
def stepAt (hdr : EifHeader) (src : ByteSource) (i : Nat) (meta : Option (List Nat)) :
    Except EifError (EifSectionHeader × List (Nat × Nat) × Option (List Nat)) × List SourceOp :=
  let off := sectionOffset hdr i
  if src.seekTo off = off then
    match readExact src off EIF_SECTION_HEADER_SIZE with
    | none => (Except.error EifError.TruncatedSectionHeader,
        [SourceOp.seek off, SourceOp.readBytes off EIF_SECTION_HEADER_SIZE])
    | some hb =>
      let sh := parse_eif_section_header hb
      let w := if sectionDeclSize hdr i = sh.section_size then []
               else [(sectionDeclSize hdr i, sh.section_size)]
      if meta = none ∧ sh.section_type = 5 then
        match readExact src (off + EIF_SECTION_HEADER_SIZE) (sh.section_size + 1) with
        | none => (Except.error EifError.TruncatedMetadata,
            [SourceOp.seek off, SourceOp.readBytes off EIF_SECTION_HEADER_SIZE,
             SourceOp.readBytes (off + EIF_SECTION_HEADER_SIZE) (sh.section_size + 1)])
        | some payload =>
          (Except.ok (sh, w, some (payload.set sh.section_size 0)),
            [SourceOp.seek off, SourceOp.readBytes off EIF_SECTION_HEADER_SIZE,
             SourceOp.readBytes (off + EIF_SECTION_HEADER_SIZE) (sh.section_size + 1)])
      else
        (Except.ok (sh, w, meta),
          [SourceOp.seek off, SourceOp.readBytes off EIF_SECTION_HEADER_SIZE])
  else (Except.error EifError.SeekFailed, [SourceOp.seek off])

/-- Prepend one section's outputs to the rest of the walk. -/
def consOut (sh : EifSectionHeader) (w : List (Nat × Nat)) :
    Except EifError WalkOut → Except EifError WalkOut
  | Except.error e => Except.error e
  | Except.ok (d, ws, m) => Except.ok (sh :: d, w ++ ws, m)

/-- The loop of `parse_eif_file` starting at section index `i` with `r`
sections left to visit, threading the captured-metadata state. -/
def walkFrom (hdr : EifHeader) (src : ByteSource) :
    Nat → Nat → Option (List Nat) → Except EifError WalkOut × List SourceOp
  | _, 0, meta => (Except.ok ([], [], meta), [])
  | i, r + 1, meta =>
    match stepAt hdr src i meta with
    | (Except.error e, ops) => (Except.error e, ops)
    | (Except.ok (sh, w, meta2), ops) =>
      let rest := walkFrom hdr src (i + 1) r meta2
      (consOut sh w rest.1, ops ++ rest.2)

/-- The section walk of `parse_eif_file`: the
`assert(section_cnt <= MAX_SECTIONS)` guard followed by the loop over
`[0, section_cnt)`. -/
def walkSections (hdr : EifHeader) (src : ByteSource) :
    Except EifError WalkOut × List SourceOp :=
  if hdr.section_cnt ≤ MAX_SECTIONS then walkFrom hdr src 0 hdr.section_cnt none
  else (Except.error EifError.TooManySections, [])

/-- The section header decoded from the 12 bytes at absolute offset `off`
of the source. -/
def sectionHeaderAt (src : ByteSource) (off : Nat) : EifSectionHeader :=
  parse_eif_section_header ((src.data.drop off).take EIF_SECTION_HEADER_SIZE)

/-- The metadata buffer the walk retains for a metadata section at offset
`off`: the `section_size + 1` bytes following the section header with the
last one overwritten by the null terminator. -/
def metadataAt (src : ByteSource) (off : Nat) : List Nat :=
  ((src.data.drop (off + EIF_SECTION_HEADER_SIZE)).take
      ((sectionHeaderAt src off).section_size + 1)).set
    (sectionHeaderAt src off).section_size 0

/-- Sufficient conditions for iteration `i` of the walk to succeed whatever
the captured-metadata state is: the seek lands where asked, 12 header bytes
are available, and, if the section is metadata-typed, the
`section_size + 1` payload bytes are available too. -/
def stepReadable (hdr : EifHeader) (src : ByteSource) (i : Nat) : Prop :=
  src.seekTo (sectionOffset hdr i) = sectionOffset hdr i ∧
  sectionOffset hdr i + EIF_SECTION_HEADER_SIZE ≤ src.data.length ∧
  ((sectionHeaderAt src (sectionOffset hdr i)).section_type = 5 →
    sectionOffset hdr i + EIF_SECTION_HEADER_SIZE +
      (sectionHeaderAt src (sectionOffset hdr i)).section_size + 1 ≤ src.data.length)

instance (hdr : EifHeader) (src : ByteSource) (i : Nat) :
    Decidable (stepReadable hdr src i) := by
  unfold stepReadable; exact inferInstance

/-! ### Concrete example headers and sources used by the witnesses -/

/-- Example header declaring two sections at offsets 0 and 20 with declared
sizes 3 and 1. -/
def exHdrTwoMeta : EifHeader :=
  { magic := [46, 101, 105, 102], version := 0, flags := 0, default_memory := 0
    default_cpus := 0, reserved := 0, section_cnt := 2
    section_offsets := [0, 20], section_sizes := [3, 1], unused := 0, eif_crc32 := 0 }

/-- Example source holding two metadata sections: one of size 3 with payload
bytes 10, 11, 12 and one of size 1 with payload byte 7. -/
def exSrcTwoMeta : ByteSource :=
  { data := [0, 5, 0, 0, 0, 0, 0, 0, 0, 0, 0, 3, 10, 11, 12, 99, 0, 0, 0, 0,
             0, 5, 0, 0, 0, 0, 0, 0, 0, 0, 0, 1, 7, 8]
    seekTo := fun o => o }

/-- Example header for the size-mismatch scenario: one section at offset 0
with declared size 10. -/
def exHdrMismatch : EifHeader :=
  { magic := [46, 101, 105, 102], version := 0, flags := 0, default_memory := 0
    default_cpus := 0, reserved := 0, section_cnt := 1
    section_offsets := [0], section_sizes := [10], unused := 0, eif_crc32 := 0 }

/-- Example source whose on-disk section header declares size 20 (the file
header said 10), followed by 21 payload bytes. -/
def exSrcMismatch : ByteSource :=
  { data := [0, 5, 0, 0, 0, 0, 0, 0, 0, 0, 0, 20] ++ List.replicate 21 65
    seekTo := fun o => o }

/-- Example header for the metadata over-read: one metadata section at
offset 0 with declared size 2. -/
def exHdrOverread : EifHeader :=
  { magic := [46, 101, 105, 102], version := 0, flags := 0, default_memory := 0
    default_cpus := 0, reserved := 0, section_cnt := 1
    section_offsets := [0], section_sizes := [2], unused := 0, eif_crc32 := 0 }

/-- Source whose metadata payload of 2 bytes ends exactly at end-of-file. -/
def exSrcOverreadShort : ByteSource :=
  { data := [0, 5, 0, 0, 0, 0, 0, 0, 0, 0, 0, 2, 65, 66], seekTo := fun o => o }

/-- The same source with one extra trailing byte available. -/
def exSrcOverreadLong : ByteSource :=
  { data := [0, 5, 0, 0, 0, 0, 0, 0, 0, 0, 0, 2, 65, 66, 9], seekTo := fun o => o }

/-- The same over-read source with the byte after the declared payload
changed from 9 to 7. -/
def exSrcOverreadLongAlt : ByteSource :=
  { data := [0, 5, 0, 0, 0, 0, 0, 0, 0, 0, 0, 2, 65, 66, 7], seekTo := fun o => o }

/-- Header for the aliasing scenario: section 0 lives at offset 200,
section 1 (metadata, payload size 89) at offset 100, so that the byte right
after section 1's payload is byte 201 — the second byte of section 0's
on-disk type field. -/
def exHdrAlias : EifHeader :=
  { magic := [46, 101, 105, 102], version := 0, flags := 0, default_memory := 0
    default_cpus := 0, reserved := 0, section_cnt := 2
    section_offsets := [200, 100], section_sizes := [0, 89], unused := 0
    eif_crc32 := 0 }

/-- Aliasing source one: section 0 has type 3, section 1 has type 5 and
payload size 89 whose first byte is 65. -/
def exSrcAlias1 : ByteSource :=
  { data := [0, 0, 0, 0, 0, 0, 0, 0, 0, 0, 0, 0, 0, 0, 0, 0, 0, 0, 0, 0, 0, 0, 0, 0, 0, 0, 0, 0, 0,
             0, 0, 0, 0, 0, 0, 0, 0, 0, 0, 0, 0, 0, 0, 0, 0, 0, 0, 0, 0, 0, 0, 0, 0, 0, 0, 0, 0, 0,
             0, 0, 0, 0, 0, 0, 0, 0, 0, 0, 0, 0, 0, 0, 0, 0, 0, 0, 0, 0, 0, 0, 0, 0, 0, 0, 0, 0, 0,
             0, 0, 0, 0, 0, 0, 0, 0, 0, 0, 0, 0, 0, 0, 5, 0, 0, 0, 0, 0, 0, 0, 0, 0, 89, 65, 0, 0,
             0, 0, 0, 0, 0, 0, 0, 0, 0, 0, 0, 0, 0, 0, 0, 0, 0, 0, 0, 0, 0, 0, 0, 0, 0, 0, 0, 0, 0,
             0, 0, 0, 0, 0, 0, 0, 0, 0, 0, 0, 0, 0, 0, 0, 0, 0, 0, 0, 0, 0, 0, 0, 0, 0, 0, 0, 0, 0,
             0, 0, 0, 0, 0, 0, 0, 0, 0, 0, 0, 0, 0, 0, 0, 0, 0, 0, 0, 0, 0, 0, 0, 0, 0, 0, 0, 0, 3,
             0, 0, 0, 0, 0, 0, 0, 0, 0, 0, 0]
    seekTo := fun o => o }

/-- Aliasing source two: identical except byte 201 is 5, which turns
section 0 into a metadata section. -/
def exSrcAlias2 : ByteSource :=
  { data := [0, 0, 0, 0, 0, 0, 0, 0, 0, 0, 0, 0, 0, 0, 0, 0, 0, 0, 0, 0, 0, 0, 0, 0, 0, 0, 0, 0, 0,
             0, 0, 0, 0, 0, 0, 0, 0, 0, 0, 0, 0, 0, 0, 0, 0, 0, 0, 0, 0, 0, 0, 0, 0, 0, 0, 0, 0, 0,
             0, 0, 0, 0, 0, 0, 0, 0, 0, 0, 0, 0, 0, 0, 0, 0, 0, 0, 0, 0, 0, 0, 0, 0, 0, 0, 0, 0, 0,
             0, 0, 0, 0, 0, 0, 0, 0, 0, 0, 0, 0, 0, 0, 5, 0, 0, 0, 0, 0, 0, 0, 0, 0, 89, 65, 0, 0,
             0, 0, 0, 0, 0, 0, 0, 0, 0, 0, 0, 0, 0, 0, 0, 0, 0, 0, 0, 0, 0, 0, 0, 0, 0, 0, 0, 0, 0,
             0, 0, 0, 0, 0, 0, 0, 0, 0, 0, 0, 0, 0, 0, 0, 0, 0, 0, 0, 0, 0, 0, 0, 0, 0, 0, 0, 0, 0,
             0, 0, 0, 0, 0, 0, 0, 0, 0, 0, 0, 0, 0, 0, 0, 0, 0, 0, 0, 0, 0, 0, 0, 0, 0, 0, 0, 0, 5,
             0, 0, 0, 0, 0, 0, 0, 0, 0, 0, 0]
    seekTo := fun o => o }

/-! ### List and byte-order helper lemmas -/

lemma getD_drop (l : List Nat) (a i : Nat) : (l.drop a).getD i 0 = l.getD (a + i) 0 := by
  simp [List.getD_eq_getElem?_getD, List.getElem?_drop]

lemma getD_lt_of_bytes (l : List Nat) (hb : ∀ x ∈ l, x < 2 ^ 8) (i : Nat)
    (hi : i < l.length) : l.getD i 0 < 2 ^ 8 := by
  rw [List.getD_eq_getElem _ _ hi]
  exact hb _ (List.getElem_mem hi)

lemma getD_zero_of_ge (l : List Nat) (i : Nat) (hi : l.length ≤ i) : l.getD i 0 = 0 := by
  rw [List.getD_eq_getElem?_getD, List.getElem?_eq_none (by simpa using hi)]
  rfl

lemma take_two_eq (l : List Nat) (h : 2 ≤ l.length) :
    l.take 2 = [l.getD 0 0, l.getD 1 0] := by
  rcases l with _ | ⟨a, l⟩; · simp at h
  rcases l with _ | ⟨b, l⟩; · simp at h
  rfl

lemma take_four_eq (l : List Nat) (h : 4 ≤ l.length) :
    l.take 4 = [l.getD 0 0, l.getD 1 0, l.getD 2 0, l.getD 3 0] := by
  rcases l with _ | ⟨a, l⟩; · simp at h
  rcases l with _ | ⟨b, l⟩; · simp at h
  rcases l with _ | ⟨c, l⟩; · simp at h
  rcases l with _ | ⟨d, l⟩; · simp at h
  rfl

lemma take_eight_eq (l : List Nat) (h : 8 ≤ l.length) :
    l.take 8 = [l.getD 0 0, l.getD 1 0, l.getD 2 0, l.getD 3 0,
                l.getD 4 0, l.getD 5 0, l.getD 6 0, l.getD 7 0] := by
  rcases l with _ | ⟨a, l⟩; · simp at h
  rcases l with _ | ⟨b, l⟩; · simp at h
  rcases l with _ | ⟨c, l⟩; · simp at h
  rcases l with _ | ⟨d, l⟩; · simp at h
  rcases l with _ | ⟨e, l⟩; · simp at h
  rcases l with _ | ⟨f, l⟩; · simp at h
  rcases l with _ | ⟨g, l⟩; · simp at h
  rcases l with _ | ⟨k, l⟩; · simp at h
  rfl

lemma beBytes16_beU16 (l : List Nat) (h : 2 ≤ l.length) (hb : ∀ x ∈ l, x < 2 ^ 8) :
    beBytes16 (beU16 l) = l.take 2 := by
  rw [take_two_eq l h]
  have h0 := getD_lt_of_bytes l hb 0 (by omega)
  have h1 := getD_lt_of_bytes l hb 1 (by omega)
  simp only [beBytes16, beU16, List.cons.injEq, and_true]
  omega

lemma beBytes32_beU32 (l : List Nat) (h : 4 ≤ l.length) (hb : ∀ x ∈ l, x < 2 ^ 8) :
    beBytes32 (beU32 l) = l.take 4 := by
  rw [take_four_eq l h]
  have h0 := getD_lt_of_bytes l hb 0 (by omega)
  have h1 := getD_lt_of_bytes l hb 1 (by omega)
  have h2 := getD_lt_of_bytes l hb 2 (by omega)
  have h3 := getD_lt_of_bytes l hb 3 (by omega)
  simp only [beBytes32, beU32, List.cons.injEq, and_true]
  omega

lemma beBytes64_beU64 (l : List Nat) (h : 8 ≤ l.length) (hb : ∀ x ∈ l, x < 2 ^ 8) :
    beBytes64 (beU64 l) = l.take 8 := by
  rw [take_eight_eq l h]
  have h0 := getD_lt_of_bytes l hb 0 (by omega)
  have h1 := getD_lt_of_bytes l hb 1 (by omega)
  have h2 := getD_lt_of_bytes l hb 2 (by omega)
  have h3 := getD_lt_of_bytes l hb 3 (by omega)
  have h4 := getD_lt_of_bytes l hb 4 (by omega)
  have h5 := getD_lt_of_bytes l hb 5 (by omega)
  have h6 := getD_lt_of_bytes l hb 6 (by omega)
  have h7 := getD_lt_of_bytes l hb 7 (by omega)
  simp only [beBytes64, beU64, List.cons.injEq, and_true]
  omega

lemma flatten_chunks (l : List Nat) (a : Nat) (k : Nat) (h : a + 8 * k ≤ l.length) :
    ((List.range k).map fun i => (l.drop (a + 8 * i)).take 8).flatten =
      (l.drop a).take (8 * k) := by
  induction k with
  | zero => simp
  | succ k ih =>
    rw [List.range_succ, List.map_append, List.flatten_append, ih (by omega)]
    simp only [List.map_cons, List.map_nil, List.flatten_cons, List.flatten_nil,
      List.append_nil]
    rw [show 8 * (k + 1) = 8 * k + 8 from by ring, List.take_add]
    congr 1
    rw [List.drop_drop]

lemma slice_glue (l : List Nat) (a n : Nat) :
    (l.drop a).take n ++ l.drop (a + n) = l.drop a := by
  have hd : l.drop (a + n) = (l.drop a).drop n := (List.drop_drop n a l).symm
  rw [hd, List.take_append_drop]

/-! ### HeaderDecoder: round trip, layout, truncation, dependence -/

lemma parse_eif_header_ok (buf : List Nat) (hl : 548 ≤ buf.length) :
    parse_eif_header buf = Except.ok
      { magic := [buf.getD 0 0, buf.getD 1 0, buf.getD 2 0, buf.getD 3 0]
        version := beU16 (buf.drop 4)
        flags := beU16 (buf.drop 6)
        default_memory := beU64 (buf.drop 8)
        default_cpus := beU64 (buf.drop 16)
        reserved := beU16 (buf.drop 24)
        section_cnt := beU16 (buf.drop 26)
        section_offsets := (List.range MAX_SECTIONS).map fun i => beU64 (buf.drop (28 + 8 * i))
        section_sizes := (List.range MAX_SECTIONS).map fun i => beU64 (buf.drop (284 + 8 * i))
        unused := beU32 (buf.drop 540)
        eif_crc32 := beU32 (buf.drop 544) } := by
  rw [parse_eif_header, if_pos]
  exact hl

/-- Claim C2: decoding a 548-byte buffer with `parse_eif_header` and
re-encoding every field of the resulting header at its fixed offset in
big-endian byte order reproduces the original bytes exactly. -/
theorem c2_decode_encode_roundtrip (buf : List Nat) (hl : buf.length = 548)
    (hb : ∀ x ∈ buf, x < 2 ^ 8) :
    ∃ h, parse_eif_header buf = Except.ok h ∧ encode_header h = buf := by
  refine ⟨_, parse_eif_header_ok buf (by omega), ?_⟩
  have hb' : ∀ a : Nat, ∀ x ∈ buf.drop a, x < 2 ^ 8 :=
    fun a x hx => hb x (List.drop_subset a buf hx)
  have hlen : ∀ a : Nat, (buf.drop a).length = 548 - a := by
    intro a; rw [List.length_drop, hl]
  have e4 : beBytes16 (beU16 (buf.drop 4)) = (buf.drop 4).take 2 :=
    beBytes16_beU16 _ (by rw [hlen]; omega) (hb' 4)
  have e6 : beBytes16 (beU16 (buf.drop 6)) = (buf.drop 6).take 2 :=
    beBytes16_beU16 _ (by rw [hlen]; omega) (hb' 6)
  have e8 : beBytes64 (beU64 (buf.drop 8)) = (buf.drop 8).take 8 :=
    beBytes64_beU64 _ (by rw [hlen]; omega) (hb' 8)
  have e16 : beBytes64 (beU64 (buf.drop 16)) = (buf.drop 16).take 8 :=
    beBytes64_beU64 _ (by rw [hlen]; omega) (hb' 16)
  have e24 : beBytes16 (beU16 (buf.drop 24)) = (buf.drop 24).take 2 :=
    beBytes16_beU16 _ (by rw [hlen]; omega) (hb' 24)
  have e26 : beBytes16 (beU16 (buf.drop 26)) = (buf.drop 26).take 2 :=
    beBytes16_beU16 _ (by rw [hlen]; omega) (hb' 26)
  have e540 : beBytes32 (beU32 (buf.drop 540)) = (buf.drop 540).take 4 :=
    beBytes32_beU32 _ (by rw [hlen]; omega) (hb' 540)
  have e544 : beBytes32 (beU32 (buf.drop 544)) = buf.drop 544 := by
    rw [beBytes32_beU32 _ (by rw [hlen]) (hb' 544)]
    exact List.take_of_length_le (by rw [hlen])
  have echunks : ∀ a : Nat, a + 256 ≤ 548 →
      (((List.range MAX_SECTIONS).map fun i => beU64 (buf.drop (a + 8 * i))).map
          beBytes64).flatten = (buf.drop a).take 256 := by
    intro a ha
    rw [List.map_map]
    rw [List.map_congr_left (g := fun i => (buf.drop (a + 8 * i)).take 8) ?_]
    · have h256 : a + 8 * MAX_SECTIONS ≤ buf.length := by
        rw [hl]; unfold MAX_SECTIONS; omega
      rw [flatten_chunks buf a MAX_SECTIONS h256]
      norm_num [MAX_SECTIONS]
    · intro i hi
      rw [List.mem_range] at hi
      exact beBytes64_beU64 _
        (by rw [hlen]; unfold MAX_SECTIONS at hi; omega)
        (hb' (a + 8 * i))
  have eoffs := echunks 28 (by omega)
  have esizes := echunks 284 (by omega)
  have emagic : [buf.getD 0 0, buf.getD 1 0, buf.getD 2 0, buf.getD 3 0] =
      buf.take 4 := (take_four_eq buf (by omega)).symm
  simp only [encode_header]
  rw [emagic, e4, e6, e8, e16, e24, e26, eoffs, esizes, e540, e544]
  rw [slice_glue buf 540 4, slice_glue buf 284 256, slice_glue buf 28 256,
    slice_glue buf 26 2, slice_glue buf 24 2, slice_glue buf 16 8,
    slice_glue buf 8 8, slice_glue buf 6 2, slice_glue buf 4 2,
    List.take_append_drop]

/-- Witness for C2 at a concrete 548-byte buffer. -/
theorem c2_decode_encode_roundtrip_witness :
    ∃ h, parse_eif_header (List.replicate 548 7) = Except.ok h ∧
      encode_header h = List.replicate 548 7 :=
  c2_decode_encode_roundtrip (List.replicate 548 7) (by rw [List.length_replicate])
    (fun x hx => by rw [List.eq_of_mem_replicate hx]; omega)

/-- Claim C3: `parse_eif_header` reads every field at the fixed offsets of
the layout table (magic at 0, version at 4, flags at 6, default_memory at 8,
default_cpus at 16, reserved at 24, section_count at 26, the 32 section
offsets from 28, the 32 section sizes from 284, unused at 540, crc32 at
544), decoding every multi-byte integer most-significant byte first, and a
section header is decoded from its 12 bytes as big-endian 16-bit type,
16-bit flags and 64-bit size. -/
theorem c3_fixed_offset_layout (buf sbuf : List Nat) (hl : 548 ≤ buf.length) :
    parse_eif_header buf = Except.ok
      { magic := [buf.getD 0 0, buf.getD 1 0, buf.getD 2 0, buf.getD 3 0]
        version := buf.getD 4 0 * 2 ^ 8 + buf.getD 5 0
        flags := buf.getD 6 0 * 2 ^ 8 + buf.getD 7 0
        default_memory := buf.getD 8 0 * 2 ^ 56 + buf.getD 9 0 * 2 ^ 48 +
          buf.getD 10 0 * 2 ^ 40 + buf.getD 11 0 * 2 ^ 32 + buf.getD 12 0 * 2 ^ 24 +
          buf.getD 13 0 * 2 ^ 16 + buf.getD 14 0 * 2 ^ 8 + buf.getD 15 0
        default_cpus := buf.getD 16 0 * 2 ^ 56 + buf.getD 17 0 * 2 ^ 48 +
          buf.getD 18 0 * 2 ^ 40 + buf.getD 19 0 * 2 ^ 32 + buf.getD 20 0 * 2 ^ 24 +
          buf.getD 21 0 * 2 ^ 16 + buf.getD 22 0 * 2 ^ 8 + buf.getD 23 0
        reserved := buf.getD 24 0 * 2 ^ 8 + buf.getD 25 0
        section_cnt := buf.getD 26 0 * 2 ^ 8 + buf.getD 27 0
        section_offsets := (List.range 32).map fun i =>
          buf.getD (28 + 8 * i) 0 * 2 ^ 56 + buf.getD (28 + 8 * i + 1) 0 * 2 ^ 48 +
          buf.getD (28 + 8 * i + 2) 0 * 2 ^ 40 + buf.getD (28 + 8 * i + 3) 0 * 2 ^ 32 +
          buf.getD (28 + 8 * i + 4) 0 * 2 ^ 24 + buf.getD (28 + 8 * i + 5) 0 * 2 ^ 16 +
          buf.getD (28 + 8 * i + 6) 0 * 2 ^ 8 + buf.getD (28 + 8 * i + 7) 0
        section_sizes := (List.range 32).map fun i =>
          buf.getD (284 + 8 * i) 0 * 2 ^ 56 + buf.getD (284 + 8 * i + 1) 0 * 2 ^ 48 +
          buf.getD (284 + 8 * i + 2) 0 * 2 ^ 40 + buf.getD (284 + 8 * i + 3) 0 * 2 ^ 32 +
          buf.getD (284 + 8 * i + 4) 0 * 2 ^ 24 + buf.getD (284 + 8 * i + 5) 0 * 2 ^ 16 +
          buf.getD (284 + 8 * i + 6) 0 * 2 ^ 8 + buf.getD (284 + 8 * i + 7) 0
        unused := buf.getD 540 0 * 2 ^ 24 + buf.getD 541 0 * 2 ^ 16 +
          buf.getD 542 0 * 2 ^ 8 + buf.getD 543 0
        eif_crc32 := buf.getD 544 0 * 2 ^ 24 + buf.getD 545 0 * 2 ^ 16 +
          buf.getD 546 0 * 2 ^ 8 + buf.getD 547 0 } ∧
    parse_eif_section_header sbuf =
      { section_type := sbuf.getD 0 0 * 2 ^ 8 + sbuf.getD 1 0
        flags := sbuf.getD 2 0 * 2 ^ 8 + sbuf.getD 3 0
        section_size := sbuf.getD 4 0 * 2 ^ 56 + sbuf.getD 5 0 * 2 ^ 48 +
          sbuf.getD 6 0 * 2 ^ 40 + sbuf.getD 7 0 * 2 ^ 32 + sbuf.getD 8 0 * 2 ^ 24 +
          sbuf.getD 9 0 * 2 ^ 16 + sbuf.getD 10 0 * 2 ^ 8 + sbuf.getD 11 0 } := by
  constructor
  · rw [parse_eif_header_ok buf hl]
    simp [MAX_SECTIONS, beU16, beU32, beU64, getD_drop]
  · simp [parse_eif_section_header, beU16, beU64, getD_drop]

set_option maxRecDepth 10000 in
/-- Witness for C3 at concrete buffers. -/
theorem c3_fixed_offset_layout_witness :
    parse_eif_header (List.replicate 548 0) = Except.ok
      { magic := [0, 0, 0, 0], version := 0, flags := 0, default_memory := 0
        default_cpus := 0, reserved := 0, section_cnt := 0
        section_offsets := List.replicate 32 0, section_sizes := List.replicate 32 0
        unused := 0, eif_crc32 := 0 } ∧
    parse_eif_section_header [0, 5, 0, 1, 0, 0, 0, 0, 0, 0, 1, 2] =
      { section_type := 5, flags := 1, section_size := 258 } := by
  have h := c3_fixed_offset_layout (List.replicate 548 0)
    [0, 5, 0, 1, 0, 0, 0, 0, 0, 0, 1, 2] (by rw [List.length_replicate])
  refine ⟨?_, ?_⟩
  · rw [h.1]; decide
  · rw [h.2]; decide

/-- Claim C7: on fewer than 548 bytes `parse_eif_header` always fails with
`TruncatedInput`; on at least 548 bytes it always succeeds, with no
validation of the magic bytes or of the section count. -/
theorem c7_truncated_input (buf : List Nat) :
    (buf.length < 548 → parse_eif_header buf = Except.error EifError.TruncatedInput) ∧
    (548 ≤ buf.length → ∃ h, parse_eif_header buf = Except.ok h) := by
  constructor
  · intro h
    rw [parse_eif_header, if_neg]
    simp [EIF_HEADER_SIZE]
    omega
  · intro h
    exact ⟨_, parse_eif_header_ok buf h⟩

/-- Witness for C7: a 3-byte input is rejected, and a 548-byte input whose
magic is not `.eif` (all bytes 255) still decodes. -/
theorem c7_truncated_input_witness :
    parse_eif_header [1, 2, 3] = Except.error EifError.TruncatedInput ∧
    ∃ h, parse_eif_header (List.replicate 548 255) = Except.ok h :=
  ⟨(c7_truncated_input [1, 2, 3]).1 (by simp),
   (c7_truncated_input (List.replicate 548 255)).2 (by rw [List.length_replicate])⟩

lemma getD_eq_of_take_eq (b1 b2 : List Nat) (n : Nat) (ht : b1.take n = b2.take n)
    (q : Nat) (hq : q < n) : b1.getD q 0 = b2.getD q 0 := by
  have h := congrArg (fun l => l.getD q 0) ht
  simpa [List.getD_eq_getElem?_getD, List.getElem?_take, hq] using h

lemma beU16_congr (b1 b2 : List Nat) (a : Nat)
    (h : ∀ j, j < 2 → b1.getD (a + j) 0 = b2.getD (a + j) 0) :
    beU16 (b1.drop a) = beU16 (b2.drop a) := by
  simp only [beU16, getD_drop]
  rw [h 0 (by omega), h 1 (by omega)]

lemma beU32_congr (b1 b2 : List Nat) (a : Nat)
    (h : ∀ j, j < 4 → b1.getD (a + j) 0 = b2.getD (a + j) 0) :
    beU32 (b1.drop a) = beU32 (b2.drop a) := by
  simp only [beU32, getD_drop]
  rw [h 0 (by omega), h 1 (by omega), h 2 (by omega), h 3 (by omega)]

lemma beU64_congr (b1 b2 : List Nat) (a : Nat)
    (h : ∀ j, j < 8 → b1.getD (a + j) 0 = b2.getD (a + j) 0) :
    beU64 (b1.drop a) = beU64 (b2.drop a) := by
  simp only [beU64, getD_drop]
  rw [h 0 (by omega), h 1 (by omega), h 2 (by omega), h 3 (by omega),
    h 4 (by omega), h 5 (by omega), h 6 (by omega), h 7 (by omega)]

/-- Claim C9: the decoded header depends only on the first 548 bytes of the
input: two buffers of length at least 548 agreeing on bytes 0..547 decode to
identical records (and every field of the record is assigned from the
input by construction of `parse_eif_header`). -/
theorem c9_header_depends_only_on_first_548 (b1 b2 : List Nat)
    (h1 : 548 ≤ b1.length) (h2 : 548 ≤ b2.length)
    (ht : b1.take 548 = b2.take 548) :
    parse_eif_header b1 = parse_eif_header b2 := by
  have hq : ∀ q, q < 548 → b1.getD q 0 = b2.getD q 0 := getD_eq_of_take_eq b1 b2 548 ht
  rw [parse_eif_header_ok b1 h1, parse_eif_header_ok b2 h2]
  simp only [Except.ok.injEq, EifHeader.mk.injEq]
  refine ⟨?_, ?_, ?_, ?_, ?_, ?_, ?_, ?_, ?_, ?_, ?_⟩
  · rw [hq 0 (by omega), hq 1 (by omega), hq 2 (by omega), hq 3 (by omega)]
  · exact beU16_congr b1 b2 4 fun j hj => hq _ (by omega)
  · exact beU16_congr b1 b2 6 fun j hj => hq _ (by omega)
  · exact beU64_congr b1 b2 8 fun j hj => hq _ (by omega)
  · exact beU64_congr b1 b2 16 fun j hj => hq _ (by omega)
  · exact beU16_congr b1 b2 24 fun j hj => hq _ (by omega)
  · exact beU16_congr b1 b2 26 fun j hj => hq _ (by omega)
  · refine List.map_congr_left fun i hi => ?_
    rw [List.mem_range] at hi
    exact beU64_congr b1 b2 (28 + 8 * i) fun j hj => hq _ (by unfold MAX_SECTIONS at hi; omega)
  · refine List.map_congr_left fun i hi => ?_
    rw [List.mem_range] at hi
    exact beU64_congr b1 b2 (284 + 8 * i) fun j hj => hq _ (by unfold MAX_SECTIONS at hi; omega)
  · exact beU32_congr b1 b2 540 fun j hj => hq _ (by omega)
  · exact beU32_congr b1 b2 544 fun j hj => hq _ (by omega)

/-- Witness for C9: two buffers agreeing on the first 548 bytes but
differing afterwards decode identically. -/
theorem c9_header_depends_only_on_first_548_witness :
    parse_eif_header (List.replicate 548 1 ++ [50]) =
      parse_eif_header (List.replicate 548 1 ++ [99]) :=
  c9_header_depends_only_on_first_548 _ _
    (by rw [List.length_append, List.length_replicate]; omega)
    (by rw [List.length_append, List.length_replicate]; omega)
    (by rw [List.take_append_of_le_length (by rw [List.length_replicate]),
            List.take_append_of_le_length (by rw [List.length_replicate])])

/-! ### SectionWalker: step and walk characterizations -/

lemma readExact_some_iff (src : ByteSource) (pos n : Nat) (l : List Nat) :
    readExact src pos n = some l ↔
      pos + n ≤ src.data.length ∧ l = (src.data.drop pos).take n := by
  unfold readExact
  split <;> rename_i h
  · simp [h, eq_comm]
  · simp [h]

lemma readExact_none_iff (src : ByteSource) (pos n : Nat) :
    readExact src pos n = none ↔ src.data.length < pos + n := by
  unfold readExact
  split <;> rename_i h <;> simp <;> omega

lemma stepAt_seek_fail (hdr : EifHeader) (src : ByteSource) (i : Nat)
    (meta : Option (List Nat))
    (h : src.seekTo (sectionOffset hdr i) ≠ sectionOffset hdr i) :
    stepAt hdr src i meta =
      (Except.error EifError.SeekFailed, [SourceOp.seek (sectionOffset hdr i)]) := by
  simp only [stepAt]
  rw [if_neg h]

lemma stepAt_hdr_short (hdr : EifHeader) (src : ByteSource) (i : Nat)
    (meta : Option (List Nat))
    (hseek : src.seekTo (sectionOffset hdr i) = sectionOffset hdr i)
    (hlen : src.data.length < sectionOffset hdr i + EIF_SECTION_HEADER_SIZE) :
    stepAt hdr src i meta =
      (Except.error EifError.TruncatedSectionHeader,
        [SourceOp.seek (sectionOffset hdr i),
         SourceOp.readBytes (sectionOffset hdr i) EIF_SECTION_HEADER_SIZE]) := by
  simp only [stepAt]
  rw [if_pos hseek, (readExact_none_iff src _ _).2 hlen]

lemma stepAt_ok_inv (hdr : EifHeader) (src : ByteSource) (i : Nat)
    (meta meta2 : Option (List Nat)) (sh : EifSectionHeader)
    (w : List (Nat × Nat)) (ops : List SourceOp)
    (h : stepAt hdr src i meta = (Except.ok (sh, w, meta2), ops)) :
    sh = sectionHeaderAt src (sectionOffset hdr i) ∧
    w = (if sectionDeclSize hdr i = sh.section_size then []
         else [(sectionDeclSize hdr i, sh.section_size)]) ∧
    ((meta2 = meta ∧ ¬(meta = none ∧ sh.section_type = 5)) ∨
      (meta = none ∧ sh.section_type = 5 ∧
        meta2 = some (metadataAt src (sectionOffset hdr i)) ∧
        sectionOffset hdr i + EIF_SECTION_HEADER_SIZE + sh.section_size + 1 ≤
          src.data.length)) := by
  simp only [stepAt] at h
  by_cases hseek : src.seekTo (sectionOffset hdr i) = sectionOffset hdr i
  · rw [if_pos hseek] at h
    cases hre : readExact src (sectionOffset hdr i) EIF_SECTION_HEADER_SIZE with
    | none =>
      simp only [hre] at h
      exact absurd h (by simp)
    | some hb =>
      simp only [hre] at h
      rw [readExact_some_iff] at hre
      have hsh : parse_eif_section_header hb = sectionHeaderAt src (sectionOffset hdr i) := by
        rw [hre.2]; rfl
      rw [hsh] at h
      by_cases hcap : meta = none ∧ (sectionHeaderAt src (sectionOffset hdr i)).section_type = 5
      · rw [if_pos hcap] at h
        cases hre2 : readExact src (sectionOffset hdr i + EIF_SECTION_HEADER_SIZE)
            ((sectionHeaderAt src (sectionOffset hdr i)).section_size + 1) with
        | none =>
          simp only [hre2] at h
          exact absurd h (by simp)
        | some payload =>
          simp only [hre2] at h
          rw [readExact_some_iff] at hre2
          simp only [Prod.mk.injEq, Except.ok.injEq] at h
          obtain ⟨⟨hsh2, hw, hm⟩, hops⟩ := h
          subst hsh2
          refine ⟨rfl, hw.symm, Or.inr ⟨hcap.1, hcap.2, ?_, by omega⟩⟩
          rw [← hm, hre2.2]
          unfold metadataAt
          rfl
      · rw [if_neg hcap] at h
        simp only [Prod.mk.injEq, Except.ok.injEq] at h
        obtain ⟨⟨hsh2, hw, hm⟩, hops⟩ := h
        subst hsh2
        exact ⟨rfl, hw.symm, Or.inl ⟨hm.symm, hcap⟩⟩
  · rw [if_neg hseek] at h
    simp only [Prod.mk.injEq] at h
    exact absurd h.1 (by simp)

lemma stepAt_ok_of_readable (hdr : EifHeader) (src : ByteSource) (i : Nat)
    (meta : Option (List Nat)) (h : stepReadable hdr src i) :
    ∃ sh w meta2 ops, stepAt hdr src i meta = (Except.ok (sh, w, meta2), ops) := by
  obtain ⟨hseek, hhdr, hmeta⟩ := h
  simp only [stepAt]
  rw [if_pos hseek]
  have hre : readExact src (sectionOffset hdr i) EIF_SECTION_HEADER_SIZE =
      some ((src.data.drop (sectionOffset hdr i)).take EIF_SECTION_HEADER_SIZE) :=
    (readExact_some_iff src _ _ _).2 ⟨hhdr, rfl⟩
  simp only [hre]
  have hsh : parse_eif_section_header
      ((src.data.drop (sectionOffset hdr i)).take EIF_SECTION_HEADER_SIZE) =
      sectionHeaderAt src (sectionOffset hdr i) := rfl
  rw [hsh]
  by_cases hcap : meta = none ∧ (sectionHeaderAt src (sectionOffset hdr i)).section_type = 5
  · rw [if_pos hcap]
    have hre2 : readExact src (sectionOffset hdr i + EIF_SECTION_HEADER_SIZE)
        ((sectionHeaderAt src (sectionOffset hdr i)).section_size + 1) =
        some ((src.data.drop (sectionOffset hdr i + EIF_SECTION_HEADER_SIZE)).take
          ((sectionHeaderAt src (sectionOffset hdr i)).section_size + 1)) :=
      (readExact_some_iff src _ _ _).2 ⟨by have := hmeta hcap.2; omega, rfl⟩
    simp only [hre2]
    exact ⟨_, _, _, _, rfl⟩
  · rw [if_neg hcap]
    exact ⟨_, _, _, _, rfl⟩

lemma walkFrom_ok_parts (hdr : EifHeader) (src : ByteSource) :
    ∀ (r i : Nat) (meta0 : Option (List Nat)) (d : List EifSectionHeader)
      (w : List (Nat × Nat)) (m : Option (List Nat)) (ops : List SourceOp),
      walkFrom hdr src i r meta0 = (Except.ok (d, w, m), ops) →
      d.length = r ∧
      (∀ t, t < r → d.getD t ⟨0, 0, 0⟩ = sectionHeaderAt src (sectionOffset hdr (i + t))) ∧
      (∀ x, meta0 = some x → m = some x) := by
  intro r
  induction r with
  | zero =>
    intro i meta0 d w m ops h
    simp only [walkFrom, Prod.mk.injEq, Except.ok.injEq] at h
    obtain ⟨⟨hd, hw, hm⟩, hops⟩ := h
    subst hd
    refine ⟨rfl, fun t ht => absurd ht (by omega), fun x hx => ?_⟩
    rw [← hm, hx]
  | succ r ih =>
    intro i meta0 d w m ops h
    rcases hstep : stepAt hdr src i meta0 with ⟨res, ops0⟩
    cases res with
    | error e =>
      simp only [walkFrom, hstep] at h
      exact absurd h (by simp)
    | ok trip =>
      obtain ⟨sh, w0, meta2⟩ := trip
      simp only [walkFrom, hstep] at h
      rcases hrest : walkFrom hdr src (i + 1) r meta2 with ⟨res2, ops2⟩
      simp only [hrest] at h
      cases res2 with
      | error e =>
        simp only [consOut] at h
        exact absurd h (by simp)
      | ok trip2 =>
        obtain ⟨d2, w2, m2⟩ := trip2
        simp only [consOut, Prod.mk.injEq, Except.ok.injEq] at h
        obtain ⟨⟨hd, hw, hm⟩, hops⟩ := h
        subst hd
        obtain ⟨hlen2, hpt2, hper2⟩ := ih (i + 1) meta2 d2 w2 m2 ops2 hrest
        obtain ⟨hsh, hw0, hcases⟩ := stepAt_ok_inv hdr src i meta0 meta2 sh w0 ops0 hstep
        refine ⟨by simp [hlen2], ?_, ?_⟩
        · intro t ht
          cases t with
          | zero => simpa using hsh
          | succ t =>
            simp only [List.getD_cons_succ]
            rw [show i + (t + 1) = i + 1 + t from by omega]
            exact hpt2 t (by omega)
        · intro x hx
          rw [← hm]
          apply hper2
          rcases hcases with ⟨hm2, _⟩ | ⟨hnone, _⟩
          · rw [hm2, hx]
          · rw [hnone] at hx
            exact absurd hx (by simp)

lemma walkFrom_warn_mem (hdr : EifHeader) (src : ByteSource) :
    ∀ (r i : Nat) (meta0 : Option (List Nat)) (d : List EifSectionHeader)
      (w : List (Nat × Nat)) (m : Option (List Nat)) (ops : List SourceOp),
      walkFrom hdr src i r meta0 = (Except.ok (d, w, m), ops) →
      ∀ t, t < r →
        sectionDeclSize hdr (i + t) ≠
          (sectionHeaderAt src (sectionOffset hdr (i + t))).section_size →
        (sectionDeclSize hdr (i + t),
          (sectionHeaderAt src (sectionOffset hdr (i + t))).section_size) ∈ w := by
  intro r
  induction r with
  | zero => intro i meta0 d w m ops h t ht; omega
  | succ r ih =>
    intro i meta0 d w m ops h t ht hne
    rcases hstep : stepAt hdr src i meta0 with ⟨res, ops0⟩
    cases res with
    | error e =>
      simp only [walkFrom, hstep] at h
      exact absurd h (by simp)
    | ok trip =>
      obtain ⟨sh, w0, meta2⟩ := trip
      simp only [walkFrom, hstep] at h
      rcases hrest : walkFrom hdr src (i + 1) r meta2 with ⟨res2, ops2⟩
      simp only [hrest] at h
      cases res2 with
      | error e =>
        simp only [consOut] at h
        exact absurd h (by simp)
      | ok trip2 =>
        obtain ⟨d2, w2, m2⟩ := trip2
        simp only [consOut, Prod.mk.injEq, Except.ok.injEq] at h
        obtain ⟨⟨hd, hw, hm⟩, hops⟩ := h
        obtain ⟨hsh, hw0, hcases⟩ := stepAt_ok_inv hdr src i meta0 meta2 sh w0 ops0 hstep
        rw [← hw]
        cases t with
        | zero =>
          apply List.mem_append_left
          simp only [Nat.add_zero] at hne
          rw [hw0, hsh, if_neg hne]
          simp
        | succ t =>
          apply List.mem_append_right
          have hne2 : sectionDeclSize hdr (i + 1 + t) ≠
              (sectionHeaderAt src (sectionOffset hdr (i + 1 + t))).section_size := by
            rw [show i + 1 + t = i + (t + 1) from by omega]
            exact hne
          have hmem := ih (i + 1) meta2 d2 w2 m2 ops2 hrest t (by omega) hne2
          rw [show i + 1 + t = i + (t + 1) from by omega] at hmem
          exact hmem

lemma walkFrom_first_capture (hdr : EifHeader) (src : ByteSource) :
    ∀ (r i : Nat) (d : List EifSectionHeader) (w : List (Nat × Nat))
      (m : List Nat) (ops : List SourceOp),
      walkFrom hdr src i r none = (Except.ok (d, w, some m), ops) →
      ∃ k, k < r ∧
        (sectionHeaderAt src (sectionOffset hdr (i + k))).section_type = 5 ∧
        (∀ j, j < k →
          (sectionHeaderAt src (sectionOffset hdr (i + j))).section_type ≠ 5) ∧
        m = metadataAt src (sectionOffset hdr (i + k)) ∧
        sectionOffset hdr (i + k) + EIF_SECTION_HEADER_SIZE +
          (sectionHeaderAt src (sectionOffset hdr (i + k))).section_size + 1 ≤
          src.data.length := by
  intro r
  induction r with
  | zero =>
    intro i d w m ops h
    simp only [walkFrom, Prod.mk.injEq, Except.ok.injEq] at h
    exact absurd h.1.2.2 (by simp)
  | succ r ih =>
    intro i d w m ops h
    rcases hstep : stepAt hdr src i none with ⟨res, ops0⟩
    cases res with
    | error e =>
      simp only [walkFrom, hstep] at h
      exact absurd h (by simp)
    | ok trip =>
      obtain ⟨sh, w0, meta2⟩ := trip
      simp only [walkFrom, hstep] at h
      rcases hrest : walkFrom hdr src (i + 1) r meta2 with ⟨res2, ops2⟩
      simp only [hrest] at h
      cases res2 with
      | error e =>
        simp only [consOut] at h
        exact absurd h (by simp)
      | ok trip2 =>
        obtain ⟨d2, w2, m2⟩ := trip2
        simp only [consOut, Prod.mk.injEq, Except.ok.injEq] at h
        obtain ⟨⟨hd, hw, hm⟩, hops⟩ := h
        obtain ⟨hsh, hw0, hcases⟩ := stepAt_ok_inv hdr src i none meta2 sh w0 ops0 hstep
        rcases hcases with ⟨hm2, hnot⟩ | ⟨-, htype5, hm2, hbound⟩
        · have hnot5 : sh.section_type ≠ 5 := fun hc => hnot ⟨rfl, hc⟩
          subst hm2
          obtain ⟨k, hk, hk5, hkfirst, hkm, hkb⟩ :=
            ih (i + 1) d2 w2 m ops2 (by rw [hrest, hm])
          refine ⟨k + 1, by omega, ?_, ?_, ?_, ?_⟩
          · rw [show i + (k + 1) = i + 1 + k from by omega]
            exact hk5
          · intro j hj
            cases j with
            | zero =>
              simpa only [Nat.add_zero, ← hsh] using hnot5
            | succ j =>
              rw [show i + (j + 1) = i + 1 + j from by omega]
              exact hkfirst j (by omega)
          · rw [show i + (k + 1) = i + 1 + k from by omega]
            exact hkm
          · rw [show i + (k + 1) = i + 1 + k from by omega]
            exact hkb
        · obtain ⟨-, -, hper⟩ :=
            walkFrom_ok_parts hdr src r (i + 1) meta2 d2 w2 m2 ops2 hrest
          have hm2eq := hper (metadataAt src (sectionOffset hdr i)) hm2
          rw [hm] at hm2eq
          refine ⟨0, by omega, ?_, fun j hj => absurd hj (by omega), ?_, ?_⟩
          · rw [Nat.add_zero, ← hsh]
            exact htype5
          · rw [Nat.add_zero]
            simpa using hm2eq
          · rw [Nat.add_zero]
            have := hbound
            rw [hsh] at this
            exact this

lemma walkFrom_err_lift (hdr : EifHeader) (src : ByteSource) :
    ∀ (k i r : Nat) (meta0 : Option (List Nat)) (e : EifError),
      k ≤ r →
      (∀ j, i ≤ j → j < i + k → stepReadable hdr src j) →
      (∀ meta1 : Option (List Nat),
        (walkFrom hdr src (i + k) (r - k) meta1).1 = Except.error e) →
      (walkFrom hdr src i r meta0).1 = Except.error e := by
  intro k
  induction k with
  | zero =>
    intro i r meta0 e hk hread hfail
    simpa using hfail meta0
  | succ k ih =>
    intro i r meta0 e hk hread hfail
    cases r with
    | zero => omega
    | succ r =>
      obtain ⟨sh, w0, meta2, ops0, hstep⟩ :=
        stepAt_ok_of_readable hdr src i meta0 (hread i (by omega) (by omega))
      have hrec := ih (i + 1) r meta2 e (by omega)
        (fun j hj1 hj2 => hread j (by omega) (by omega)) ?_
      · simp only [walkFrom, hstep]
        rw [hrec]
        rfl
      · intro meta1
        have h2 := hfail meta1
        rw [show i + 1 + k = i + (k + 1) from by omega,
          show r - k = r + 1 - (k + 1) from by omega]
        exact h2

/-- Claim C6: a walk whose header declares more than 32 sections fails
fatally with `TooManySections`, and no seek or read is performed on the
byte source (the operation trace is empty). -/
theorem c6_too_many_sections (hdr : EifHeader) (src : ByteSource)
    (h : MAX_SECTIONS < hdr.section_cnt) :
    walkSections hdr src = (Except.error EifError.TooManySections, []) := by
  unfold walkSections
  rw [if_neg (by omega)]

/-- Witness for C6: `section_count = 33` fails before touching the source. -/
theorem c6_too_many_sections_witness :
    walkSections
      { magic := [46, 101, 105, 102], version := 0, flags := 0, default_memory := 0,
        default_cpus := 0, reserved := 0, section_cnt := 33, section_offsets := [],
        section_sizes := [], unused := 0, eif_crc32 := 0 }
      { data := [], seekTo := fun o => o } =
      (Except.error EifError.TooManySections, []) :=
  c6_too_many_sections _ _ (by decide)

/-- Claim C8: in any iteration `i` reached by the walk, a seek that lands at
a position different from the requested `section_offsets[i]` is fatal with
`SeekFailed`, and fewer than 12 available bytes for the section header is
fatal with `TruncatedSectionHeader`; either fatal outcome makes the whole
walk return the bare error, discarding every descriptor already decoded. -/
theorem c8_seek_and_header_failures_fatal (hdr : EifHeader) (src : ByteSource)
    (i : Nat) (hcnt : hdr.section_cnt ≤ MAX_SECTIONS) (hi : i < hdr.section_cnt)
    (hpre : ∀ j, j < i → stepReadable hdr src j) :
    (src.seekTo (sectionOffset hdr i) ≠ sectionOffset hdr i →
      (walkSections hdr src).1 = Except.error EifError.SeekFailed) ∧
    (src.seekTo (sectionOffset hdr i) = sectionOffset hdr i →
      src.data.length < sectionOffset hdr i + EIF_SECTION_HEADER_SIZE →
      (walkSections hdr src).1 = Except.error EifError.TruncatedSectionHeader) := by
  unfold walkSections
  rw [if_pos hcnt]
  constructor
  · intro hseek
    refine walkFrom_err_lift hdr src i 0 hdr.section_cnt none EifError.SeekFailed
      (by omega) (fun j hj1 hj2 => hpre j (by omega)) ?_
    intro meta1
    rw [Nat.zero_add]
    obtain ⟨rr, hrr⟩ : ∃ rr, hdr.section_cnt - i = rr + 1 := ⟨hdr.section_cnt - i - 1, by omega⟩
    rw [hrr]
    simp only [walkFrom, stepAt_seek_fail hdr src i meta1 hseek]
  · intro hseek hshort
    refine walkFrom_err_lift hdr src i 0 hdr.section_cnt none EifError.TruncatedSectionHeader
      (by omega) (fun j hj1 hj2 => hpre j (by omega)) ?_
    intro meta1
    rw [Nat.zero_add]
    obtain ⟨rr, hrr⟩ : ∃ rr, hdr.section_cnt - i = rr + 1 := ⟨hdr.section_cnt - i - 1, by omega⟩
    rw [hrr]
    simp only [walkFrom, stepAt_hdr_short hdr src i meta1 hseek hshort]

/-- Witness for C8: section 1's seek lands at 12 instead of 100, so the walk
fails with `SeekFailed` even though section 0 decodes fine. -/
theorem c8_seek_and_header_failures_fatal_witness :
    (walkSections
      { magic := [46, 101, 105, 102], version := 0, flags := 0, default_memory := 0,
        default_cpus := 0, reserved := 0, section_cnt := 2,
        section_offsets := [0, 100], section_sizes := [0, 0], unused := 0,
        eif_crc32 := 0 }
      { data := List.replicate 12 0, seekTo := fun o => min o 12 }).1 =
      Except.error EifError.SeekFailed := by
  refine (c8_seek_and_header_failures_fatal _ _ 1 (by decide) (by decide)
    (fun j hj => ?_)).1 (by decide)
  have hj0 : j = 0 := by omega
  subst hj0
  decide

/-- Claim C4: whenever a successful walk retains a metadata payload, that
payload is exactly the one captured at the first metadata-typed section;
every visited section (including later metadata-typed ones) is still decoded
and reported as a descriptor, and no later section replaces the retained
payload. -/
theorem c4_first_metadata_wins (hdr : EifHeader) (src : ByteSource)
    (d : List EifSectionHeader) (w : List (Nat × Nat)) (m : List Nat)
    (ops : List SourceOp)
    (h : walkSections hdr src = (Except.ok (d, w, some m), ops)) :
    d.length = hdr.section_cnt ∧
    (∀ t, t < hdr.section_cnt →
      d.getD t ⟨0, 0, 0⟩ = sectionHeaderAt src (sectionOffset hdr t)) ∧
    ∃ k, k < hdr.section_cnt ∧
      (sectionHeaderAt src (sectionOffset hdr k)).section_type = 5 ∧
      (∀ j, j < k → (sectionHeaderAt src (sectionOffset hdr j)).section_type ≠ 5) ∧
      m = metadataAt src (sectionOffset hdr k) := by
  unfold walkSections at h
  by_cases hcnt : hdr.section_cnt ≤ MAX_SECTIONS
  · rw [if_pos hcnt] at h
    obtain ⟨hlen, hpt, hper⟩ :=
      walkFrom_ok_parts hdr src hdr.section_cnt 0 none d w (some m) ops h
    obtain ⟨k, hk, hk5, hkf, hkm, hkb⟩ :=
      walkFrom_first_capture hdr src hdr.section_cnt 0 d w m ops h
    refine ⟨hlen, ?_, k, hk, ?_, ?_, ?_⟩
    · intro t ht
      have := hpt t ht
      rwa [Nat.zero_add] at this
    · rwa [Nat.zero_add] at hk5
    · intro j hj
      have := hkf j hj
      rwa [Nat.zero_add] at this
    · rwa [Nat.zero_add] at hkm
  · rw [if_neg hcnt] at h
    exact absurd h (by simp)

/-- Witness for C4: two metadata sections; the retained payload is the first
section's bytes plus the terminator, and both sections are reported. -/
theorem c4_first_metadata_wins_witness :
    ([⟨5, 0, 3⟩, ⟨5, 0, 1⟩] : List EifSectionHeader).length = exHdrTwoMeta.section_cnt ∧
    (∀ t, t < exHdrTwoMeta.section_cnt →
      ([⟨5, 0, 3⟩, ⟨5, 0, 1⟩] : List EifSectionHeader).getD t ⟨0, 0, 0⟩ =
        sectionHeaderAt exSrcTwoMeta (sectionOffset exHdrTwoMeta t)) ∧
    ∃ k, k < exHdrTwoMeta.section_cnt ∧
      (sectionHeaderAt exSrcTwoMeta (sectionOffset exHdrTwoMeta k)).section_type = 5 ∧
      (∀ j, j < k →
        (sectionHeaderAt exSrcTwoMeta (sectionOffset exHdrTwoMeta j)).section_type ≠ 5) ∧
      [10, 11, 12, 0] = metadataAt exSrcTwoMeta (sectionOffset exHdrTwoMeta k) :=
  c4_first_metadata_wins exHdrTwoMeta exSrcTwoMeta [⟨5, 0, 3⟩, ⟨5, 0, 1⟩] []
    [10, 11, 12, 0]
    [SourceOp.seek 0, SourceOp.readBytes 0 12, SourceOp.readBytes 12 4,
     SourceOp.seek 20, SourceOp.readBytes 20 12] (by decide)

/-- Claim C5: for every visited section whose declared size in the file
header differs from the size in the on-disk section header, the walk emits a
non-fatal warning carrying both values and still visits every section; the
metadata payload, when captured, is sized by the on-disk section header's
`section_size` (that is what `metadataAt` reads), not the file header's
declared size. -/
theorem c5_size_mismatch_warning (hdr : EifHeader) (src : ByteSource)
    (d : List EifSectionHeader) (w : List (Nat × Nat)) (mo : Option (List Nat))
    (ops : List SourceOp) (i : Nat)
    (h : walkSections hdr src = (Except.ok (d, w, mo), ops))
    (hi : i < hdr.section_cnt)
    (hne : sectionDeclSize hdr i ≠
      (sectionHeaderAt src (sectionOffset hdr i)).section_size) :
    (sectionDeclSize hdr i,
      (sectionHeaderAt src (sectionOffset hdr i)).section_size) ∈ w ∧
    d.length = hdr.section_cnt ∧
    (∀ m, mo = some m → ∃ k, k < hdr.section_cnt ∧
      (sectionHeaderAt src (sectionOffset hdr k)).section_type = 5 ∧
      m = metadataAt src (sectionOffset hdr k)) := by
  unfold walkSections at h
  by_cases hcnt : hdr.section_cnt ≤ MAX_SECTIONS
  · rw [if_pos hcnt] at h
    obtain ⟨hlen, hpt, hper⟩ :=
      walkFrom_ok_parts hdr src hdr.section_cnt 0 none d w mo ops h
    refine ⟨?_, hlen, ?_⟩
    · have := walkFrom_warn_mem hdr src hdr.section_cnt 0 none d w mo ops h i hi
      rw [Nat.zero_add] at this
      exact this hne
    · intro m hm
      subst hm
      obtain ⟨k, hk, hk5, hkf, hkm, hkb⟩ :=
        walkFrom_first_capture hdr src hdr.section_cnt 0 d w m ops h
      rw [Nat.zero_add] at hk5 hkm
      exact ⟨k, hk, hk5, hkm⟩
  · rw [if_neg hcnt] at h
    exact absurd h (by simp)

/-- Witness for C5: declared size 10, on-disk size 20; the walk succeeds,
warns with `(10, 20)`, and reads the 20-byte (plus terminator) payload. -/
theorem c5_size_mismatch_warning_witness :
    (sectionDeclSize exHdrMismatch 0,
      (sectionHeaderAt exSrcMismatch (sectionOffset exHdrMismatch 0)).section_size) ∈
        [((10 : Nat), (20 : Nat))] ∧
    ([⟨5, 0, 20⟩] : List EifSectionHeader).length = exHdrMismatch.section_cnt ∧
    (∀ m, (some ((List.replicate 21 65).set 20 0) : Option (List Nat)) = some m →
      ∃ k, k < exHdrMismatch.section_cnt ∧
        (sectionHeaderAt exSrcMismatch (sectionOffset exHdrMismatch k)).section_type = 5 ∧
        m = metadataAt exSrcMismatch (sectionOffset exHdrMismatch k)) :=
  c5_size_mismatch_warning exHdrMismatch exSrcMismatch [⟨5, 0, 20⟩] [(10, 20)]
    (some ((List.replicate 21 65).set 20 0))
    [SourceOp.seek 0, SourceOp.readBytes 0 12, SourceOp.readBytes 12 21] 0
    (by decide) (by decide) (by decide)

/-- Claim C1 (divergence): the spec says the metadata capture reads exactly
`section_size` payload bytes and appends the terminator locally, failing
only when fewer than `section_size` bytes remain.  The code instead reads
`section_size + 1` bytes from the source and then overwrites the extra byte
with the terminator: on a source holding exactly the 2 declared payload
bytes after the section header it fails with `TruncatedMetadata`, and with
one extra byte present it succeeds, retaining payload-plus-terminator. -/
theorem c1_metadata_capture_overreads_one_byte :
    walkSections exHdrOverread exSrcOverreadShort =
      (Except.error EifError.TruncatedMetadata,
        [SourceOp.seek 0, SourceOp.readBytes 0 12, SourceOp.readBytes 12 3]) ∧
    walkSections exHdrOverread exSrcOverreadLong =
      (Except.ok ([⟨5, 0, 2⟩], [], some [65, 66, 0]),
        [SourceOp.seek 0, SourceOp.readBytes 0 12, SourceOp.readBytes 12 3]) := by
  constructor
  · decide
  · decide

/-! ### Claim C10: counterexample and amended statement -/

set_option maxRecDepth 20000 in
set_option maxHeartbeats 2000000 in
/-- Counterexample to C10 as stated: the two aliasing sources differ only at
byte 201, which is exactly `section_offset + 12 + section_size` of the
section from which the first walk captures its metadata, yet the two walks
retain different metadata contents, because byte 201 is also part of
section 0's on-disk header and flipping it turns section 0 into the first
metadata section. -/
theorem c10_tail_byte_counterexample :
    exSrcAlias2.data = exSrcAlias1.data.set 201 5 ∧
    exSrcAlias2.data.length = exSrcAlias1.data.length ∧
    (sectionHeaderAt exSrcAlias1 (sectionOffset exHdrAlias 1)).section_type = 5 ∧
    (sectionHeaderAt exSrcAlias1 (sectionOffset exHdrAlias 0)).section_type ≠ 5 ∧
    sectionOffset exHdrAlias 1 + EIF_SECTION_HEADER_SIZE +
      (sectionHeaderAt exSrcAlias1 (sectionOffset exHdrAlias 1)).section_size = 201 ∧
    (walkSections exHdrAlias exSrcAlias1).1 =
      Except.ok ([⟨3, 0, 0⟩, ⟨5, 0, 89⟩], [], some (65 :: List.replicate 89 0)) ∧
    (walkSections exHdrAlias exSrcAlias2).1 =
      Except.ok ([⟨5, 0, 0⟩, ⟨5, 0, 89⟩], [], some [0]) ∧
    (65 :: List.replicate 89 0 : List Nat) ≠ [0] := by
  refine ⟨rfl, rfl, by decide, by decide, by decide, by decide, by decide, by decide⟩

lemma getElem?_congr_of_agree (L L' : List Nat) (p : Nat)
    (hlen : L'.length = L.length)
    (hag : ∀ q, q ≠ p → L'.getD q 0 = L.getD q 0) :
    ∀ q, q ≠ p → L'[q]? = L[q]? := by
  intro q hq
  rcases Nat.lt_or_ge q L.length with hlt | hge
  · rw [List.getElem?_eq_getElem (by omega), List.getElem?_eq_getElem hlt]
    have h := hag q hq
    rw [List.getD_eq_getElem _ _ (by omega), List.getD_eq_getElem _ _ hlt] at h
    exact congrArg some h
  · rw [List.getElem?_eq_none (by omega), List.getElem?_eq_none (by omega)]

lemma slice_congr (L L' : List Nat) (p a n : Nat)
    (hlen : L'.length = L.length)
    (hag : ∀ q, q ≠ p → L'.getD q 0 = L.getD q 0)
    (hp : a + n ≤ p ∨ p < a) :
    (L'.drop a).take n = (L.drop a).take n := by
  apply List.ext_getElem?
  intro q
  rw [List.getElem?_take, List.getElem?_take]
  by_cases hq : q < n
  · rw [if_pos hq, if_pos hq, List.getElem?_drop, List.getElem?_drop]
    exact getElem?_congr_of_agree L L' p hlen hag (a + q) (by omega)
  · rw [if_neg hq, if_neg hq]

lemma set_last_slice_congr (L L' : List Nat) (p b z : Nat)
    (hlen : L'.length = L.length)
    (hag : ∀ q, q ≠ p → L'.getD q 0 = L.getD q 0)
    (hp : p = b + z) :
    ((L'.drop b).take (z + 1)).set z 0 = ((L.drop b).take (z + 1)).set z 0 := by
  apply List.ext_getElem?
  intro q
  rw [List.getElem?_set, List.getElem?_set]
  by_cases hzq : z = q
  · rw [if_pos hzq, if_pos hzq, List.length_take, List.length_take,
      List.length_drop, List.length_drop, hlen]
  · rw [if_neg hzq, if_neg hzq, List.getElem?_take, List.getElem?_take]
    by_cases hq : q < z + 1
    · rw [if_pos hq, if_pos hq, List.getElem?_drop, List.getElem?_drop]
      exact getElem?_congr_of_agree L L' p hlen hag (b + q) (by omega)
    · rw [if_neg hq, if_neg hq]

lemma sectionHeaderAt_congr (src src' : ByteSource) (off p : Nat)
    (hlen : src'.data.length = src.data.length)
    (hag : ∀ q, q ≠ p → src'.data.getD q 0 = src.data.getD q 0)
    (hp : off + EIF_SECTION_HEADER_SIZE ≤ p ∨ p < off) :
    sectionHeaderAt src' off = sectionHeaderAt src off := by
  unfold sectionHeaderAt
  rw [slice_congr src.data src'.data p off EIF_SECTION_HEADER_SIZE hlen hag hp]

lemma stepAt_ok_reaches (hdr : EifHeader) (src : ByteSource) (i : Nat)
    (meta meta2 : Option (List Nat)) (sh : EifSectionHeader)
    (w : List (Nat × Nat)) (ops : List SourceOp)
    (h : stepAt hdr src i meta = (Except.ok (sh, w, meta2), ops)) :
    src.seekTo (sectionOffset hdr i) = sectionOffset hdr i ∧
    sectionOffset hdr i + EIF_SECTION_HEADER_SIZE ≤ src.data.length := by
  simp only [stepAt] at h
  by_cases hseek : src.seekTo (sectionOffset hdr i) = sectionOffset hdr i
  · refine ⟨hseek, ?_⟩
    rw [if_pos hseek] at h
    cases hre : readExact src (sectionOffset hdr i) EIF_SECTION_HEADER_SIZE with
    | none =>
      simp only [hre] at h
      exact absurd h (by simp)
    | some hb => exact ((readExact_some_iff src _ _ _).1 hre).1
  · rw [if_neg hseek] at h
    simp only [Prod.mk.injEq] at h
    exact absurd h.1 (by simp)

lemma stepAt_nocapture_eq (hdr : EifHeader) (src : ByteSource) (i : Nat)
    (meta : Option (List Nat))
    (hseek : src.seekTo (sectionOffset hdr i) = sectionOffset hdr i)
    (hbound : sectionOffset hdr i + EIF_SECTION_HEADER_SIZE ≤ src.data.length)
    (hno : ¬(meta = none ∧ (sectionHeaderAt src (sectionOffset hdr i)).section_type = 5)) :
    stepAt hdr src i meta =
      (Except.ok (sectionHeaderAt src (sectionOffset hdr i),
        (if sectionDeclSize hdr i =
            (sectionHeaderAt src (sectionOffset hdr i)).section_size then []
         else [(sectionDeclSize hdr i,
            (sectionHeaderAt src (sectionOffset hdr i)).section_size)]),
        meta),
       [SourceOp.seek (sectionOffset hdr i),
        SourceOp.readBytes (sectionOffset hdr i) EIF_SECTION_HEADER_SIZE]) := by
  simp only [stepAt]
  rw [if_pos hseek]
  have hre : readExact src (sectionOffset hdr i) EIF_SECTION_HEADER_SIZE =
      some ((src.data.drop (sectionOffset hdr i)).take EIF_SECTION_HEADER_SIZE) :=
    (readExact_some_iff src _ _ _).2 ⟨hbound, rfl⟩
  simp only [hre]
  rw [show parse_eif_section_header
      ((src.data.drop (sectionOffset hdr i)).take EIF_SECTION_HEADER_SIZE) =
      sectionHeaderAt src (sectionOffset hdr i) from rfl]
  rw [if_neg hno]

lemma stepAt_capture_eq (hdr : EifHeader) (src : ByteSource) (i : Nat)
    (hseek : src.seekTo (sectionOffset hdr i) = sectionOffset hdr i)
    (hbound : sectionOffset hdr i + EIF_SECTION_HEADER_SIZE ≤ src.data.length)
    (h5 : (sectionHeaderAt src (sectionOffset hdr i)).section_type = 5)
    (hbound2 : sectionOffset hdr i + EIF_SECTION_HEADER_SIZE +
      (sectionHeaderAt src (sectionOffset hdr i)).section_size + 1 ≤ src.data.length) :
    stepAt hdr src i none =
      (Except.ok (sectionHeaderAt src (sectionOffset hdr i),
        (if sectionDeclSize hdr i =
            (sectionHeaderAt src (sectionOffset hdr i)).section_size then []
         else [(sectionDeclSize hdr i,
            (sectionHeaderAt src (sectionOffset hdr i)).section_size)]),
        some (metadataAt src (sectionOffset hdr i))),
       [SourceOp.seek (sectionOffset hdr i),
        SourceOp.readBytes (sectionOffset hdr i) EIF_SECTION_HEADER_SIZE,
        SourceOp.readBytes (sectionOffset hdr i + EIF_SECTION_HEADER_SIZE)
          ((sectionHeaderAt src (sectionOffset hdr i)).section_size + 1)]) := by
  simp only [stepAt]
  rw [if_pos hseek]
  have hre : readExact src (sectionOffset hdr i) EIF_SECTION_HEADER_SIZE =
      some ((src.data.drop (sectionOffset hdr i)).take EIF_SECTION_HEADER_SIZE) :=
    (readExact_some_iff src _ _ _).2 ⟨hbound, rfl⟩
  simp only [hre]
  rw [show parse_eif_section_header
      ((src.data.drop (sectionOffset hdr i)).take EIF_SECTION_HEADER_SIZE) =
      sectionHeaderAt src (sectionOffset hdr i) from rfl]
  rw [if_pos (show True ∧
      (sectionHeaderAt src (sectionOffset hdr i)).section_type = 5 from ⟨trivial, h5⟩)]
  have hre2 : readExact src (sectionOffset hdr i + EIF_SECTION_HEADER_SIZE)
      ((sectionHeaderAt src (sectionOffset hdr i)).section_size + 1) =
      some ((src.data.drop (sectionOffset hdr i + EIF_SECTION_HEADER_SIZE)).take
        ((sectionHeaderAt src (sectionOffset hdr i)).section_size + 1)) :=
    (readExact_some_iff src _ _ _).2 ⟨by omega, rfl⟩
  simp only [hre2]
  rfl

lemma walkFrom_post_capture_congr (hdr : EifHeader) (src src' : ByteSource)
    (hseek : src'.seekTo = src.seekTo)
    (hlen : src'.data.length = src.data.length) :
    ∀ (r i : Nat) (m0 : List Nat) (d : List EifSectionHeader)
      (w : List (Nat × Nat)) (mf : Option (List Nat)) (ops : List SourceOp),
      walkFrom hdr src i r (some m0) = (Except.ok (d, w, mf), ops) →
      ∃ d' w' ops', walkFrom hdr src' i r (some m0) = (Except.ok (d', w', some m0), ops') := by
  intro r
  induction r with
  | zero =>
    intro i m0 d w mf ops h
    exact ⟨[], [], [], rfl⟩
  | succ r ih =>
    intro i m0 d w mf ops h
    rcases hstep : stepAt hdr src i (some m0) with ⟨res, ops0⟩
    cases res with
    | error e =>
      simp only [walkFrom, hstep] at h
      exact absurd h (by simp)
    | ok trip =>
      obtain ⟨sh, w0, meta2⟩ := trip
      simp only [walkFrom, hstep] at h
      rcases hrest : walkFrom hdr src (i + 1) r meta2 with ⟨res2, ops2⟩
      simp only [hrest] at h
      cases res2 with
      | error e =>
        simp only [consOut] at h
        exact absurd h (by simp)
      | ok trip2 =>
        obtain ⟨d2, w2, m2⟩ := trip2
        obtain ⟨hsh, hw0, hcases⟩ := stepAt_ok_inv hdr src i (some m0) meta2 sh w0 ops0 hstep
        have hmeta2 : meta2 = some m0 := by
          rcases hcases with ⟨hm2, -⟩ | ⟨hnone, -⟩
          · exact hm2
          · exact absurd hnone (by simp)
        subst hmeta2
        obtain ⟨hseeki, hboundi⟩ :=
          stepAt_ok_reaches hdr src i (some m0) (some m0) sh w0 ops0 hstep
        obtain ⟨d2x, w2x, ops2x, hrec⟩ := ih (i + 1) m0 d2 w2 m2 ops2 hrest
        have hstep2 := stepAt_nocapture_eq hdr src' i (some m0)
          (by rw [hseek]; exact hseeki) (by rw [hlen]; exact hboundi) (by simp)
        refine ⟨sectionHeaderAt src' (sectionOffset hdr i) :: d2x,
          (if sectionDeclSize hdr i =
              (sectionHeaderAt src' (sectionOffset hdr i)).section_size then []
           else [(sectionDeclSize hdr i,
              (sectionHeaderAt src' (sectionOffset hdr i)).section_size)]) ++ w2x,
          [SourceOp.seek (sectionOffset hdr i),
           SourceOp.readBytes (sectionOffset hdr i) EIF_SECTION_HEADER_SIZE] ++ ops2x, ?_⟩
        simp only [walkFrom, hstep2, hrec, consOut]

lemma walkFrom_capture_congr (hdr : EifHeader) (src src' : ByteSource) (k : Nat)
    (hseek : src'.seekTo = src.seekTo)
    (hlen : src'.data.length = src.data.length)
    (hag : ∀ q, q ≠ sectionOffset hdr k + EIF_SECTION_HEADER_SIZE +
        (sectionHeaderAt src (sectionOffset hdr k)).section_size →
      src'.data.getD q 0 = src.data.getD q 0)
    (hwin : ∀ j, j < k →
      ¬ (sectionOffset hdr j ≤ sectionOffset hdr k + EIF_SECTION_HEADER_SIZE +
            (sectionHeaderAt src (sectionOffset hdr k)).section_size ∧
          sectionOffset hdr k + EIF_SECTION_HEADER_SIZE +
            (sectionHeaderAt src (sectionOffset hdr k)).section_size <
            sectionOffset hdr j + EIF_SECTION_HEADER_SIZE))
    (hfirst : ∀ j, j < k → (sectionHeaderAt src (sectionOffset hdr j)).section_type ≠ 5)
    (hk5 : (sectionHeaderAt src (sectionOffset hdr k)).section_type = 5) :
    ∀ (r i : Nat) (d : List EifSectionHeader) (w : List (Nat × Nat))
      (mf : Option (List Nat)) (ops : List SourceOp),
      i ≤ k → k < i + r →
      walkFrom hdr src i r none = (Except.ok (d, w, mf), ops) →
      ∃ d' w' ops', walkFrom hdr src' i r none = (Except.ok (d', w', mf), ops') := by
  intro r
  induction r with
  | zero =>
    intro i d w mf ops hik hkr h
    omega
  | succ r ih =>
    intro i d w mf ops hik hkr h
    rcases hstep : stepAt hdr src i none with ⟨res, ops0⟩
    cases res with
    | error e =>
      simp only [walkFrom, hstep] at h
      exact absurd h (by simp)
    | ok trip =>
      obtain ⟨sh, w0, meta2⟩ := trip
      simp only [walkFrom, hstep] at h
      rcases hrest : walkFrom hdr src (i + 1) r meta2 with ⟨res2, ops2⟩
      simp only [hrest] at h
      cases res2 with
      | error e =>
        simp only [consOut] at h
        exact absurd h (by simp)
      | ok trip2 =>
        obtain ⟨d2, w2, m2⟩ := trip2
        simp only [consOut, Prod.mk.injEq, Except.ok.injEq] at h
        obtain ⟨⟨hd, hw, hm⟩, hops⟩ := h
        obtain ⟨hsh, hw0, hcases⟩ := stepAt_ok_inv hdr src i none meta2 sh w0 ops0 hstep
        subst hsh
        obtain ⟨hseeki, hboundi⟩ :=
          stepAt_ok_reaches hdr src i none meta2 _ w0 ops0 hstep
        by_cases hike : i = k
        · subst hike
          rcases hcases with ⟨-, hnot⟩ | ⟨-, h5, hmcap, hbound2⟩
          · exact absurd ⟨rfl, hk5⟩ hnot
          · have hshdr : sectionHeaderAt src' (sectionOffset hdr i) =
                sectionHeaderAt src (sectionOffset hdr i) :=
              sectionHeaderAt_congr src src' (sectionOffset hdr i) _ hlen hag
                (Or.inl (by omega))
            have hmeta : metadataAt src' (sectionOffset hdr i) =
                metadataAt src (sectionOffset hdr i) := by
              unfold metadataAt
              rw [hshdr]
              exact set_last_slice_congr src.data src'.data _
                (sectionOffset hdr i + EIF_SECTION_HEADER_SIZE)
                (sectionHeaderAt src (sectionOffset hdr i)).section_size hlen hag rfl
            have hstep2 := stepAt_capture_eq hdr src' i
              (by rw [hseek]; exact hseeki) (by rw [hlen]; exact hboundi)
              (by rw [hshdr]; exact h5) (by rw [hshdr, hlen]; exact hbound2)
            rw [hshdr, hmeta] at hstep2
            subst hmcap
            obtain ⟨-, -, hper⟩ :=
              walkFrom_ok_parts hdr src r (i + 1)
                (some (metadataAt src (sectionOffset hdr i))) d2 w2 m2 ops2 hrest
            have hm2 : m2 = some (metadataAt src (sectionOffset hdr i)) := hper _ rfl
            obtain ⟨d2x, w2x, ops2x, hrec⟩ :=
              walkFrom_post_capture_congr hdr src src' hseek hlen r (i + 1)
                (metadataAt src (sectionOffset hdr i)) d2 w2 m2 ops2 hrest
            refine ⟨sectionHeaderAt src (sectionOffset hdr i) :: d2x,
              (if sectionDeclSize hdr i =
                  (sectionHeaderAt src (sectionOffset hdr i)).section_size then []
               else [(sectionDeclSize hdr i,
                  (sectionHeaderAt src (sectionOffset hdr i)).section_size)]) ++ w2x,
              [SourceOp.seek (sectionOffset hdr i),
               SourceOp.readBytes (sectionOffset hdr i) EIF_SECTION_HEADER_SIZE,
               SourceOp.readBytes (sectionOffset hdr i + EIF_SECTION_HEADER_SIZE)
                 ((sectionHeaderAt src (sectionOffset hdr i)).section_size + 1)] ++ ops2x,
              ?_⟩
            simp only [walkFrom, hstep2, hrec, consOut]
            rw [← hm, hm2]
        · have hilt : i < k := by omega
          rcases hcases with ⟨hm2, -⟩ | ⟨-, h5, -, -⟩
          · subst hm2
            have hshdr : sectionHeaderAt src' (sectionOffset hdr i) =
                sectionHeaderAt src (sectionOffset hdr i) := by
              refine sectionHeaderAt_congr src src' (sectionOffset hdr i) _ hlen hag ?_
              have := hwin i hilt
              omega
            have hstep2 := stepAt_nocapture_eq hdr src' i none
              (by rw [hseek]; exact hseeki) (by rw [hlen]; exact hboundi)
              (by rw [hshdr]; intro hc; exact (hfirst i hilt) hc.2)
            rw [hshdr] at hstep2
            obtain ⟨d2x, w2x, ops2x, hrec⟩ :=
              ih (i + 1) d2 w2 m2 ops2 (by omega) (by omega) hrest
            refine ⟨sectionHeaderAt src (sectionOffset hdr i) :: d2x,
              (if sectionDeclSize hdr i =
                  (sectionHeaderAt src (sectionOffset hdr i)).section_size then []
               else [(sectionDeclSize hdr i,
                  (sectionHeaderAt src (sectionOffset hdr i)).section_size)]) ++ w2x,
              [SourceOp.seek (sectionOffset hdr i),
               SourceOp.readBytes (sectionOffset hdr i) EIF_SECTION_HEADER_SIZE] ++ ops2x,
              ?_⟩
            simp only [walkFrom, hstep2, hrec, consOut]
            rw [← hm]
          · exact absurd h5 (hfirst i hilt)

/-- Claim C10 (amended): the retained metadata buffer always ends in the
null byte, and its content does not depend on the value of the extra byte
the implementation reads at `section_offset + 12 + section_size` — for any
second source of the same length agreeing everywhere else, with the proviso
(forced by the counterexample) that this byte does not fall inside the
12-byte on-disk header window of a section visited before the capture —
the second walk succeeds and retains exactly the same metadata content. -/
theorem c10_sentinel_and_tail_byte_independence
    (hdr : EifHeader) (src src' : ByteSource)
    (d : List EifSectionHeader) (w : List (Nat × Nat)) (m : List Nat)
    (ops : List SourceOp) (k : Nat)
    (hwalk : walkSections hdr src = (Except.ok (d, w, some m), ops))
    (hk : k < hdr.section_cnt)
    (hk5 : (sectionHeaderAt src (sectionOffset hdr k)).section_type = 5)
    (hkfirst : ∀ j, j < k → (sectionHeaderAt src (sectionOffset hdr j)).section_type ≠ 5)
    (hseek : src'.seekTo = src.seekTo)
    (hlen : src'.data.length = src.data.length)
    (hag : ∀ q, q ≠ sectionOffset hdr k + EIF_SECTION_HEADER_SIZE +
        (sectionHeaderAt src (sectionOffset hdr k)).section_size →
      src'.data.getD q 0 = src.data.getD q 0)
    (hwin : ∀ j, j < k →
      ¬ (sectionOffset hdr j ≤ sectionOffset hdr k + EIF_SECTION_HEADER_SIZE +
            (sectionHeaderAt src (sectionOffset hdr k)).section_size ∧
          sectionOffset hdr k + EIF_SECTION_HEADER_SIZE +
            (sectionHeaderAt src (sectionOffset hdr k)).section_size <
            sectionOffset hdr j + EIF_SECTION_HEADER_SIZE)) :
    (m ≠ [] ∧ m.getD (m.length - 1) 0 = 0) ∧
    ∃ d' w' ops', walkSections hdr src' = (Except.ok (d', w', some m), ops') := by
  unfold walkSections at hwalk
  by_cases hcnt : hdr.section_cnt ≤ MAX_SECTIONS
  · rw [if_pos hcnt] at hwalk
    obtain ⟨kk, hkk, hkk5, hkkf, hkkm, hkkb⟩ :=
      walkFrom_first_capture hdr src hdr.section_cnt 0 d w m ops hwalk
    rw [Nat.zero_add] at hkk5 hkkm hkkb
    have hkeq : kk = k := by
      rcases Nat.lt_trichotomy kk k with hlt | heq | hgt
      · exact absurd hkk5 (hkfirst kk hlt)
      · exact heq
      · have := hkkf k (by omega)
        rw [Nat.zero_add] at this
        exact absurd hk5 this
    subst hkeq
    have hlenm : m.length = (sectionHeaderAt src (sectionOffset hdr kk)).section_size + 1 := by
      rw [hkkm]
      unfold metadataAt
      rw [List.length_set, List.length_take, List.length_drop]
      omega
    refine ⟨⟨List.ne_nil_of_length_pos (by omega), ?_⟩, ?_⟩
    · rw [hlenm, Nat.add_sub_cancel, hkkm]
      unfold metadataAt
      rw [List.getD_eq_getElem _ _
        (by rw [List.length_set, List.length_take, List.length_drop]; omega)]
      exact List.getElem_set_self _
    · obtain ⟨d', w', ops', hx⟩ :=
        walkFrom_capture_congr hdr src src' kk hseek hlen hag hwin hkfirst hk5
          hdr.section_cnt 0 d w (some m) ops (by omega) (by omega) hwalk
      refine ⟨d', w', ops', ?_⟩
      unfold walkSections
      rw [if_pos hcnt]
      exact hx
  · rw [if_neg hcnt] at hwalk
    exact absurd hwalk (by simp)

/-- Witness for the amended C10: changing the byte after the captured
payload from 9 to 7 leaves the retained metadata `[65, 66, 0]` unchanged. -/
theorem c10_sentinel_and_tail_byte_independence_witness :
    (([65, 66, 0] : List Nat) ≠ [] ∧
      ([65, 66, 0] : List Nat).getD (([65, 66, 0] : List Nat).length - 1) 0 = 0) ∧
    ∃ d' w' ops', walkSections exHdrOverread exSrcOverreadLongAlt =
      (Except.ok (d', w', some [65, 66, 0]), ops') := by
  refine c10_sentinel_and_tail_byte_independence exHdrOverread exSrcOverreadLong
    exSrcOverreadLongAlt [⟨5, 0, 2⟩] [] [65, 66, 0]
    [SourceOp.seek 0, SourceOp.readBytes 0 12, SourceOp.readBytes 12 3] 0
    (by decide) (by decide) (by decide)
    (fun j hj => absurd hj (by omega))
    rfl (by decide) ?_
    (fun j hj => absurd hj (by omega))
  intro q hq
  have he : sectionOffset exHdrOverread 0 + EIF_SECTION_HEADER_SIZE +
      (sectionHeaderAt exSrcOverreadLong (sectionOffset exHdrOverread 0)).section_size = 14 := by
    decide
  rw [he] at hq
  rcases Nat.lt_or_ge q 15 with hlt | hge
  · interval_cases q <;> first | rfl | (exact absurd rfl hq)
  · rw [getD_zero_of_ge _ _ (by rw [show exSrcOverreadLongAlt.data.length = 15 from rfl]; omega),
      getD_zero_of_ge _ _ (by rw [show exSrcOverreadLong.data.length = 15 from rfl]; omega)]
